import Mathlib

/-!
Shallow embedding of the two low-level-design exercises in this repository:
`LLD/meetingScheduler.cpp` (meeting room booking) and `LLD/parkingLot.cpp`
(parking lot allocation).  C++ `std::map` members are modelled as association
lists with map semantics, `std::string` identifiers as natural numbers (only
equality and ordering matter for them), `chrono::system_clock::time_point`
values as natural numbers, and `std::optional` as `Option`.  UUID generation
is modelled by a fresh counter threaded through the service state.  Member
functions that the source only declares without a body (the meeting-side
repositories and `toDate`) are modelled from the design document and marked
as such in their doc comments.
-/

/-- Map lookup on an association list: the first entry with the given key
wins; `mapSet`/`mapErase` keep keys unique, matching `std::map`. -/
def mapFind {α : Type} : List (Nat × α) → Nat → Option α
  | [], _ => none
  | (k, v) :: rest, q => if k = q then some v else mapFind rest q

/-- Map assignment `m[k] = v`. -/
def mapSet {α : Type} (m : List (Nat × α)) (k : Nat) (v : α) : List (Nat × α) :=
  (k, v) :: m.filter (fun e => e.1 != k)

/-- Map erasure `m.erase(k)`. -/
def mapErase {α : Type} (m : List (Nat × α)) (k : Nat) : List (Nat × α) :=
  m.filter (fun e => e.1 != k)

namespace Meeting

/-- Room from `meetingScheduler.cpp`: `id` and `capacity`. -/
structure Room where
  id : Nat
  capacity : Nat
deriving DecidableEq, Repr

/-- Booking from `meetingScheduler.cpp`: id, roomId, half-open window
`[start, end_)`, attendee list (attendees are opaque ids). -/
structure Booking where
  id : Nat
  roomId : Nat
  start : Nat
  end_ : Nat
  attendees : List Nat
deriving DecidableEq, Repr

/-- Modelled from the spec: `CalendarService::toDate` is declared but has no
body in the source; it maps a timestamp to its calendar-day index.  We use a
fixed day length of 86400 seconds. -/
def dayLen : Nat := 86400

/-- Modelled from the spec: day index of a timestamp (see `dayLen`). -/
def toDate (t : Nat) : Nat := t / dayLen

/-- Modelled from the spec: `BookingRepository::findByRoomAndDay` is declared
but has no body in the source (`bookings_` is a `map<string, Booking>`; we
keep the booking values).  Per the design document it returns the given
room's reservations on the given day: bookings whose window intersects that
day. -/
def findByRoomAndDay (bookings : List Booking) (roomId : Nat) (day : Nat) :
    List Booking :=
  bookings.filter fun b =>
    b.roomId == roomId && decide (b.start < (day + 1) * dayLen) &&
      decide (day * dayLen < b.end_)

/-- Modelled from the spec: `BookingRepository::save` (declared only);
`bookings_[b.id] = b` on the underlying map. -/
def save (bookings : List Booking) (b : Booking) : List Booking :=
  b :: bookings.filter (fun x => x.id != b.id)

/-- Modelled from the spec: `BookingRepository::findById` (declared only). -/
def findById (bookings : List Booking) (id : Nat) : Option Booking :=
  bookings.find? (fun x => x.id == id)

/-- Modelled from the spec: `BookingRepository::remove` (declared only);
erases the booking with the given id. -/
def remove (bookings : List Booking) (id : Nat) : List Booking :=
  bookings.filter (fun x => x.id != id)

/-- CalendarService::overlaps, transcribed from the source:
`!(b.end <= a.start || b.start >= a.end)` where `a` is the existing booking
and `b` the candidate. -/
def overlaps (a b : Booking) : Bool :=
  !(decide (b.end_ ≤ a.start) || decide (b.start ≥ a.end_))

/-- CalendarService::isFree: scans the room's bookings on the day of the
candidate's start and reports free iff none overlaps the candidate. -/
def isFree (cal : List Booking) (roomId : Nat) (b : Booking) : Bool :=
  (findByRoomAndDay cal roomId (toDate b.start)).all fun ex => !(overlaps ex b)

/-- Modelled from the spec: `RoomRepository::findByCapacity` (declared only);
returns all rooms with at least the requested capacity, in catalog order. -/
def findByCapacity (rooms : List Room) (cap : Nat) : List Room :=
  rooms.filter (fun r => decide (cap ≤ r.capacity))

/-- One step of the `SmallestFitStrategy::select` loop condition:
`r.capacity >= cap && (!best || r.capacity < best->capacity)`. -/
def stepBetter (cap : Nat) (best : Option Room) (r : Room) : Bool :=
  decide (cap ≤ r.capacity) &&
    (match best with
     | none => true
     | some b => decide (r.capacity < b.capacity))

/-- SmallestFitStrategy::select loop, transcribed from the source. -/
def selectGo (cap : Nat) (best : Option Room) : List Room → Option Room
  | [] => best
  | r :: rs => selectGo cap (if stepBetter cap best r then some r else best) rs

/-- SmallestFitStrategy::select: smallest room whose capacity is at least the
requested headcount. -/
def select (rooms : List Room) (cap : Nat) : Option Room :=
  selectGo cap none rooms

/-- State of MeetingService together with its collaborators: the room
catalog (`RoomRepository::rooms_`), the service's `BookingRepository` (`br_`),
the CalendarService's own `BookingRepository` (`repo_`), and the fresh-id
counter modelling `newUUID`. -/
structure MeetingState where
  rooms : List Room
  br : List Booking
  calRepo : List Booking
  nextId : Nat
deriving DecidableEq, Repr

/-- Freshly assembled service: empty booking stores, a given room catalog. -/
def initMeeting (rooms : List Room) : MeetingState :=
  { rooms := rooms, br := [], calRepo := [], nextId := 0 }

/-- MeetingService::bookMeeting, transcribed from the source with the
strategy instantiated to `SmallestFitStrategy` (the variant the source
defines).  Looks up rooms by capacity, selects one, and inside the per-room
lock re-checks the calendar and commits to both stores. -/
def bookMeeting (s : MeetingState) (req : Booking) : Option Nat × MeetingState :=
  let rooms := findByCapacity s.rooms req.attendees.length
  match select rooms req.attendees.length with
  | none => (none, s)
  | some room =>
    let b := { req with roomId := room.id, id := s.nextId }
    if isFree s.calRepo b.roomId b then
      (some b.id,
        { s with br := save s.br b, calRepo := save s.calRepo b,
                 nextId := s.nextId + 1 })
    else (none, s)

/-- MeetingService::cancelMeeting, transcribed from the source: absent id is
a `false` no-op; otherwise the booking is removed from both stores. -/
def cancelMeeting (s : MeetingState) (id : Nat) : Bool × MeetingState :=
  match findById s.br id with
  | none => (false, s)
  | some _ =>
      (true, { s with br := remove s.br id, calRepo := remove s.calRepo id })

/-- One external call to the meeting service. -/
inductive MOp
  | book (req : Booking)
  | cancel (id : Nat)
deriving DecidableEq, Repr

/-- Run one call, keeping the resulting state. -/
def runMOp (s : MeetingState) : MOp → MeetingState
  | .book req => (bookMeeting s req).2
  | .cancel i => (cancelMeeting s i).2

/-- Run a call sequence. -/
def runMOps (s : MeetingState) (ops : List MOp) : MeetingState :=
  ops.foldl runMOp s

/-- A book request whose window lies inside the calendar day of its start. -/
def singleDayOp : MOp → Bool
  | .book req => decide (req.end_ ≤ (toDate req.start + 1) * dayLen)
  | .cancel _ => true

/-- No two stored bookings on the same room overlap. -/
def noRoomOverlap (l : List Booking) : Prop :=
  l.Pairwise fun a b => a.roomId = b.roomId → overlaps a b = false

end Meeting

namespace Parking

/-- VehicleType from `parkingLot.cpp`. -/
inductive VehicleType
  | Motorcycle
  | Car
  | Truck
deriving DecidableEq, Repr, Fintype

/-- SpotType from `parkingLot.cpp`. -/
inductive SpotType
  | Motorcycle
  | Compact
  | Large
deriving DecidableEq, Repr, Fintype

/-- ParkingLot (static description): id and number of levels. -/
structure ParkingLot where
  id : Nat
  numLevels : Nat
deriving DecidableEq, Repr

/-- ParkingFloor: id, owning lot, level number. -/
structure ParkingFloor where
  id : Nat
  lotId : Nat
  level : Nat
deriving DecidableEq, Repr

/-- ParkingSpot: id, owning floor, spot type. -/
structure ParkingSpot where
  id : Nat
  floorId : Nat
  type : SpotType
deriving DecidableEq, Repr

/-- Booking (dynamic assignment): `end_ = none` means the vehicle is still
parked. -/
structure Booking where
  id : Nat
  spotId : Nat
  vehicleId : Nat
  vehicleType : VehicleType
  start : Nat
  end_ : Option Nat
deriving DecidableEq, Repr

/-- BookingRepository: `bookings_` maps booking id to booking and
`vehicleIndex_` maps vehicle id to booking id. -/
structure BookingRepository where
  bookings_ : List (Nat × Booking)
  vehicleIndex_ : List (Nat × Nat)
deriving DecidableEq, Repr

/-- BookingRepository::save: `bookings_[b.id] = b; vehicleIndex_[b.vehicleId]
= b.id`. -/
def save (repo : BookingRepository) (b : Booking) : BookingRepository :=
  { bookings_ := mapSet repo.bookings_ b.id b,
    vehicleIndex_ := mapSet repo.vehicleIndex_ b.vehicleId b.id }

/-- Fallback value for `std::map::operator[]` default construction. -/
def emptyBooking : Booking :=
  { id := 0, spotId := 0, vehicleId := 0, vehicleType := VehicleType.Motorcycle,
    start := 0, end_ := none }

/-- BookingRepository::findByVehicle: looks the vehicle up in the index and
then reads `bookings_[bookingId]`.  The source uses `operator[]`, which
default-constructs when the id is missing from `bookings_`; states produced
by `save`/`remove` keep the two maps consistent, so that branch yields the
stored booking on every reachable state. -/
def findByVehicle (repo : BookingRepository) (vehicleId : Nat) : Option Booking :=
  match mapFind repo.vehicleIndex_ vehicleId with
  | none => none
  | some bid => some ((mapFind repo.bookings_ bid).getD emptyBooking)

/-- BookingRepository::remove: if the booking id is present, erase the
vehicle-index entry for that booking's vehicle and then the booking itself. -/
def remove (repo : BookingRepository) (bookingId : Nat) : BookingRepository :=
  match mapFind repo.bookings_ bookingId with
  | none => repo
  | some b =>
      { bookings_ := mapErase repo.bookings_ bookingId,
        vehicleIndex_ := mapErase repo.vehicleIndex_ b.vehicleId }

/-- State of ParkingService and its repositories: lot, floor and spot
catalogs, the booking repository, the per-spot lock map (only its key set is
relevant sequentially; `std::map<string, mutex>` iterates keys in ascending
order, which the creation counter preserves), and the fresh-id counter
modelling `newUUID`.  `clock` stands for `chrono::system_clock::now()`. -/
structure ParkingState where
  lots : List (Nat × ParkingLot)
  floors : List (Nat × ParkingFloor)
  spots : List (Nat × ParkingSpot)
  bookingRepo : BookingRepository
  mutexes : List Nat
  nextId : Nat
  clock : Nat
deriving DecidableEq, Repr

/-- Empty system before `createParkingLot`. -/
def emptyParking : ParkingState :=
  { lots := [], floors := [], spots := [], bookingRepo := ⟨[], []⟩,
    mutexes := [], nextId := 0, clock := 0 }

/-- Inner loop of `createParkingLot`: create `count` spots of one type on a
floor, each with a fresh id and a per-spot mutex entry. -/
def addSpotsOfType (ty : SpotType) (floorId : Nat) :
    Nat → ParkingState → ParkingState
  | 0, s => s
  | n + 1, s =>
      let spotId := s.nextId
      addSpotsOfType ty floorId n
        { s with spots := mapSet s.spots spotId ⟨spotId, floorId, ty⟩,
                 mutexes := s.mutexes ++ [spotId],
                 nextId := spotId + 1 }

/-- Middle loop of `createParkingLot`: iterate the `spotTypeCounts` map
(`std::map<SpotType, int>` iterates in enum order; callers pass the list in
that order). -/
def addFloorSpots (floorId : Nat) :
    List (SpotType × Nat) → ParkingState → ParkingState
  | [], s => s
  | (ty, count) :: rest, s =>
      addFloorSpots floorId rest (addSpotsOfType ty floorId count s)

/-- Outer loop of `createParkingLot`: one floor per level, levels numbered
from `lvl` upward, `n` levels remaining. -/
def addLevels (lotId : Nat) (counts : List (SpotType × Nat)) (lvl : Nat) :
    Nat → ParkingState → ParkingState
  | 0, s => s
  | n + 1, s =>
      let floorId := s.nextId
      let s1 := { s with
        floors := mapSet s.floors floorId ⟨floorId, lotId, lvl⟩,
        nextId := floorId + 1 }
      addLevels lotId counts (lvl + 1) n (addFloorSpots floorId counts s1)

/-- ParkingService::createParkingLot, transcribed from the source
(`spotsPerLevel` is accepted and unused, as in the source). -/
def createParkingLot (levels spotsPerLevel : Nat)
    (spotTypeCounts : List (SpotType × Nat)) (s : ParkingState) :
    Nat × ParkingState :=
  let lotId := s.nextId
  let s1 := { s with lots := mapSet s.lots lotId ⟨lotId, levels⟩,
                     nextId := lotId + 1 }
  (lotId, addLevels lotId spotTypeCounts 1 levels s1)

/-- ParkingService::isOccupied, transcribed from the source: it queries the
vehicle index with the empty vehicle id (modelled as id 0), discards the
result, and returns false unconditionally. -/
def isOccupied (repo : BookingRepository) (spotId : Nat) : Bool :=
  let _ := findByVehicle repo 0
  let _ := spotId
  false

/-- ParkingService::fits, transcribed from the source fit table. -/
def fits (v : VehicleType) (s : SpotType) : Bool :=
  match v with
  | VehicleType.Motorcycle => true
  | VehicleType.Car => s == SpotType.Compact || s == SpotType.Large
  | VehicleType.Truck => s == SpotType.Large

/-- Scan loop of `parkVehicle` over the per-spot mutex keys.  Sequentially
`try_to_lock` always succeeds, so only the occupancy, existence and fit
checks remain. -/
def parkScan (vehicleId : Nat) (vt : VehicleType) (s : ParkingState) :
    List Nat → Option Nat × ParkingState
  | [] => (none, s)
  | spotId :: rest =>
      if isOccupied s.bookingRepo spotId then parkScan vehicleId vt s rest
      else
        match mapFind s.spots spotId with
        | none => parkScan vehicleId vt s rest
        | some sp =>
            if fits vt sp.type then
              let b : Booking :=
                ⟨s.nextId, spotId, vehicleId, vt, s.clock, none⟩
              (some b.id,
                { s with bookingRepo := save s.bookingRepo b,
                         nextId := s.nextId + 1 })
            else parkScan vehicleId vt s rest

/-- ParkingService::parkVehicle: first-fit scan over the spot-id-ordered
mutex map; returns the new booking id or none when the lot is full. -/
def parkVehicle (s : ParkingState) (vehicleId : Nat) (vt : VehicleType) :
    Option Nat × ParkingState :=
  parkScan vehicleId vt s s.mutexes

/-- ParkingService::leaveVehicle, transcribed from the source: the local
copy's `end` is stamped, then the repository record is removed. -/
def leaveVehicle (s : ParkingState) (vehicleId : Nat) : Bool × ParkingState :=
  match findByVehicle s.bookingRepo vehicleId with
  | none => (false, s)
  | some b0 =>
      let b := { b0 with end_ := some s.clock }
      (true, { s with bookingRepo := remove s.bookingRepo b.id })

/-- ParkingService::getAvailableSpots: unoccupied spots whose type fits the
vehicle.  The source calls `.value()` on the spot lookup; spots and mutexes
are created together, so the lookup always succeeds on reachable states (an
absent spot is mapped to `false` here). -/
def getAvailableSpots (s : ParkingState) (vt : VehicleType) : List Nat :=
  s.mutexes.filter fun spotId =>
    if isOccupied s.bookingRepo spotId then false
    else
      match mapFind s.spots spotId with
      | some sp => fits vt sp.type
      | none => false

/-- Consistency of the booking repository, an invariant of every state
reachable through `save`/`remove` from the empty repository: each vehicle
index entry points at a stored booking for that vehicle, and each stored
booking is keyed by its own id. -/
def consistentB (repo : BookingRepository) : Bool :=
  (repo.vehicleIndex_.all fun e =>
    match mapFind repo.bookings_ e.2 with
    | some bk => bk.vehicleId == e.1
    | none => false) &&
  (repo.bookings_.all fun e => e.2.id == e.1)

end Parking

/-- Smallest interesting lot: one level with a single compact spot.  The lot
gets id 0, its floor id 1, the spot id 2. -/
def oneCompactLot : Parking.ParkingState :=
  (Parking.createParkingLot 1 10 [(Parking.SpotType.Compact, 1)]
    Parking.emptyParking).2

/-- The compact lot after vehicle 7 parks a car: booking id 3 on spot 2. -/
def oneCarParked : Parking.ParkingState :=
  (Parking.parkVehicle oneCompactLot 7 Parking.VehicleType.Car).2

/-- Room list with capacities 2, 4, 4, 8 in which the capacity-4 room that
comes first has the larger id. -/
def tieRooms : List Meeting.Room := [⟨1, 2⟩, ⟨5, 4⟩, ⟨3, 4⟩, ⟨2, 8⟩]

/-- Booking request with a malformed window (end before start). -/
def malformedReq : Meeting.Booking := ⟨99, 42, 100, 50, [7]⟩

/-- Request lying inside calendar day 1. -/
def dayReq : Meeting.Booking := ⟨0, 0, 86500, 86600, [10]⟩

/-- Request spanning the day-0/day-1 boundary and overlapping `dayReq`. -/
def spanReq : Meeting.Booking := ⟨0, 0, 86300, 86700, [10]⟩

/-- State after booking `dayReq` and then `spanReq` in a one-room catalog. -/
def crossDayState : Meeting.MeetingState :=
  Meeting.runMOps (Meeting.initMeeting [⟨1, 5⟩])
    [Meeting.MOp.book dayReq, Meeting.MOp.book spanReq]

/-- Room list with capacities 2, 4, 4, 8 listed in ascending id order among
the capacity-4 tie. -/
def tieRoomsSorted : List Meeting.Room := [⟨1, 2⟩, ⟨3, 4⟩, ⟨5, 4⟩, ⟨2, 8⟩]

/-- Invariant of MeetingService runs: stored bookings never overlap within a
room, the service store and the calendar store agree, and every stored id is
below the fresh-id counter. -/
def MInv (s : Meeting.MeetingState) : Prop :=
  Meeting.noRoomOverlap s.br ∧ s.calRepo = s.br ∧ ∀ b ∈ s.br, b.id < s.nextId

/-- Meeting state with one room (id 1, capacity 5) after booking one
meeting `[10, 20)`; the booking gets id 0 and room 1. -/
def oneMeetingBooked : Meeting.MeetingState :=
  (Meeting.bookMeeting (Meeting.initMeeting [⟨1, 5⟩]) ⟨0, 0, 10, 20, [3]⟩).2

/-- Characterization of the source overlap test as a half-open interval
intersection. -/
theorem overlaps_true_iff (a b : Meeting.Booking) :
    Meeting.overlaps a b = true ↔ (b.start < a.end_ ∧ a.start < b.end_) := by
  simp [Meeting.overlaps]
  omega

/-- The overlap test is symmetric. -/
theorem overlaps_comm (a b : Meeting.Booking) :
    Meeting.overlaps a b = Meeting.overlaps b a := by
  cases hab : Meeting.overlaps a b <;> cases hba : Meeting.overlaps b a <;>
      try rfl
  · rw [overlaps_true_iff] at hba
    rw [← Bool.not_eq_true, overlaps_true_iff] at hab
    omega
  · rw [overlaps_true_iff] at hab
    rw [← Bool.not_eq_true, overlaps_true_iff] at hba
    omega

/-- A successful map lookup comes from an entry of the list. -/
theorem mapFind_mem {α : Type} (m : List (Nat × α)) (k : Nat) (v : α)
    (h : mapFind m k = some v) : (k, v) ∈ m := by
  induction m with
  | nil => simp [mapFind] at h
  | cons e rest ih =>
    rw [show e = (e.1, e.2) from rfl, mapFind] at h
    by_cases hk : e.1 = k
    · rw [if_pos hk] at h
      cases h
      simp [← hk]
    · rw [if_neg hk] at h
      exact List.mem_cons_of_mem _ (ih h)

/-- Erasing a key makes its lookup fail. -/
theorem mapFind_erase_self {α : Type} (m : List (Nat × α)) (k : Nat) :
    mapFind (mapErase m k) k = none := by
  induction m with
  | nil => rfl
  | cons e rest ih =>
    by_cases h : e.1 = k
    · simpa [mapErase, List.filter_cons, h] using ih
    · simpa [mapErase, List.filter_cons, h, mapFind] using ih

/-- After removing a booking id from the meeting store, looking it up
fails. -/
theorem findById_remove (l : List Meeting.Booking) (id : Nat) :
    Meeting.findById (Meeting.remove l id) id = none := by
  rw [Meeting.findById, List.find?_eq_none]
  intro x hx
  rw [Meeting.remove, List.mem_filter] at hx
  simpa using hx.2

/-- Unfolding of the SmallestFit loop condition. -/
theorem stepBetter_true_iff (cap : Nat) (best : Option Meeting.Room)
    (r : Meeting.Room) :
    Meeting.stepBetter cap best r = true ↔
      (cap ≤ r.capacity ∧ ∀ b, best = some b → r.capacity < b.capacity) := by
  cases best with
  | none => simp [Meeting.stepBetter]
  | some b => simp [Meeting.stepBetter]

/-- Once the loop holds a candidate, it ends with one. -/
theorem selectGo_some_of_some (cap : Nat) :
    ∀ (l : List Meeting.Room) (b : Meeting.Room),
      ∃ r, Meeting.selectGo cap (some b) l = some r := by
  intro l
  induction l with
  | nil => intro b; exact ⟨b, rfl⟩
  | cons x xs ih =>
    intro b
    rw [Meeting.selectGo]
    by_cases h : Meeting.stepBetter cap (some b) x = true
    · rw [if_pos h]; exact ih x
    · rw [if_neg h]; exact ih b

/-- If the list holds a qualifying room, the loop returns a candidate. -/
theorem selectGo_isSome (cap : Nat) :
    ∀ (l : List Meeting.Room) (best : Option Meeting.Room) (r : Meeting.Room),
      r ∈ l → cap ≤ r.capacity → ∃ q, Meeting.selectGo cap best l = some q := by
  intro l
  induction l with
  | nil => intro best r hr _; simp at hr
  | cons x xs ih =>
    intro best r hr hcap
    rw [Meeting.selectGo]
    by_cases hs : Meeting.stepBetter cap best x = true
    · rw [if_pos hs]; exact selectGo_some_of_some cap xs x
    · rw [if_neg hs]
      cases best with
      | some b => exact selectGo_some_of_some cap xs b
      | none =>
        rcases List.mem_cons.mp hr with h | h
        · exfalso
          apply hs
          subst h
          simp [Meeting.stepBetter, hcap]
        · exact ih none r h hcap

/-- If no room qualifies, the loop returns nothing. -/
theorem selectGo_none_of_all (cap : Nat) :
    ∀ l : List Meeting.Room, (∀ r ∈ l, r.capacity < cap) →
      Meeting.selectGo cap none l = none := by
  intro l
  induction l with
  | nil => intro _; rfl
  | cons x xs ih =>
    intro h
    rw [Meeting.selectGo]
    have hxc := h x (by simp)
    have hx : ¬ (Meeting.stepBetter cap none x = true) := by
      simp [Meeting.stepBetter]
      omega
    rw [if_neg hx]
    exact ih (fun r hr => h r (List.mem_cons_of_mem _ hr))

/-- Full characterization of a successful SmallestFit loop run: the result
either is the incoming candidate and no listed qualifying room beats it, or
it qualifies, beats the incoming candidate, and sits at the first position
whose capacity attains the qualifying minimum. -/
theorem selectGo_some_char (cap : Nat) :
    ∀ (l : List Meeting.Room) (best : Option Meeting.Room) (r : Meeting.Room),
      Meeting.selectGo cap best l = some r →
      (best = some r ∧ ∀ x ∈ l, cap ≤ x.capacity → r.capacity ≤ x.capacity) ∨
      (cap ≤ r.capacity ∧
        (∀ b, best = some b → r.capacity < b.capacity) ∧
        ∃ l₁ l₂, l = l₁ ++ r :: l₂ ∧
          (∀ x ∈ l₁, cap ≤ x.capacity → r.capacity < x.capacity) ∧
          (∀ x ∈ l₂, cap ≤ x.capacity → r.capacity ≤ x.capacity)) := by
  intro l
  induction l with
  | nil =>
    intro best r h
    left
    exact ⟨h, by simp⟩
  | cons x xs ih =>
    intro best r h
    rw [Meeting.selectGo] at h
    by_cases hs : Meeting.stepBetter cap best x = true
    · rw [if_pos hs] at h
      have hx := (stepBetter_true_iff cap best x).mp hs
      rcases ih (some x) r h with ⟨hxr, hmin⟩ | ⟨hr1, hr2, l₁, l₂, heq, h₁, h₂⟩
      · injection hxr with hxr
        subst hxr
        right
        exact ⟨hx.1, hx.2, [], xs, rfl, by simp, hmin⟩
      · have hrx : r.capacity < x.capacity := hr2 x rfl
        right
        refine ⟨hr1, ?_, x :: l₁, l₂, by rw [heq]; rfl, ?_, h₂⟩
        · intro b hb
          exact lt_trans hrx (hx.2 b hb)
        · intro y hy hyc
          rcases List.mem_cons.mp hy with h' | h'
          · subst h'; exact hrx
          · exact h₁ y h' hyc
    · rw [if_neg hs] at h
      have hns : ¬(cap ≤ x.capacity) ∨
          ∃ b, best = some b ∧ ¬(x.capacity < b.capacity) := by
        by_contra hcon
        push_neg at hcon
        apply hs
        rw [stepBetter_true_iff]
        exact ⟨hcon.1, fun b hb => hcon.2 b hb⟩
      rcases ih best r h with ⟨hbr, hmin⟩ | ⟨hr1, hr2, l₁, l₂, heq, h₁, h₂⟩
      · left
        refine ⟨hbr, ?_⟩
        intro y hy hyc
        rcases List.mem_cons.mp hy with h' | h'
        · subst h'
          rcases hns with h'' | ⟨b, hb, hnb⟩
          · exact absurd hyc h''
          · rw [hbr] at hb
            injection hb with hb
            subst hb
            omega
        · exact hmin y h' hyc
      · right
        refine ⟨hr1, hr2, x :: l₁, l₂, by rw [heq]; rfl, ?_, h₂⟩
        intro y hy hyc
        rcases List.mem_cons.mp hy with h' | h'
        · subst h'
          rcases hns with h'' | ⟨b, hb, hnb⟩
          · exact absurd hyc h''
          · have := hr2 b hb
            omega
        · exact h₁ y h' hyc

/-- C2: code bug.  After vehicle 7 parks a car in the only (compact) spot,
spot 2 carries an active booking, yet `getAvailableSpots(Car)` still lists
spot 2 and `isOccupied` still reports it free — the occupancy check queries
the vehicle index by an empty occupant key and returns false
unconditionally. -/
theorem availability_reports_occupied_spot :
    (Parking.parkVehicle oneCompactLot 7 Parking.VehicleType.Car).1 = some 3 ∧
    (∃ e ∈ oneCarParked.bookingRepo.bookings_,
        e.2.spotId = 2 ∧ e.2.end_ = none) ∧
    2 ∈ Parking.getAvailableSpots oneCarParked Parking.VehicleType.Car ∧
    Parking.isOccupied oneCarParked.bookingRepo 2 = false := by decide

/-- C3: code bug.  Parking two cars in a freshly created one-spot lot leaves
two simultaneously active bookings (undefined end) on the same spot, because
the occupancy check always reports free. -/
theorem two_active_bookings_same_spot :
    (Parking.parkVehicle oneCarParked 8 Parking.VehicleType.Car).1 = some 4 ∧
    ∃ e1 ∈ (Parking.parkVehicle oneCarParked 8
        Parking.VehicleType.Car).2.bookingRepo.bookings_,
      ∃ e2 ∈ (Parking.parkVehicle oneCarParked 8
          Parking.VehicleType.Car).2.bookingRepo.bookings_,
        e1.2.id ≠ e2.2.id ∧ e1.2.spotId = e2.2.spotId ∧
        e1.2.end_ = none ∧ e2.2.end_ = none := by decide

/-- C4: the overlap predicate realizes exactly the half-open rule
`candidate.start < existing.end AND existing.start < candidate.end`;
adjacent windows never conflict, and two adjacent meetings `[100,200)` and
`[200,300)` on the single room both book successfully. -/
theorem overlap_halfopen_semantics :
    (∀ a b : Meeting.Booking,
        Meeting.overlaps a b = true ↔ (b.start < a.end_ ∧ a.start < b.end_)) ∧
    (∀ a b : Meeting.Booking, a.end_ = b.start →
        Meeting.overlaps a b = false ∧ Meeting.overlaps b a = false) ∧
    ((Meeting.bookMeeting (Meeting.initMeeting [⟨1, 5⟩])
        ⟨0, 0, 100, 200, [10]⟩).1 = some 0 ∧
      (Meeting.bookMeeting
        (Meeting.bookMeeting (Meeting.initMeeting [⟨1, 5⟩])
          ⟨0, 0, 100, 200, [10]⟩).2 ⟨0, 0, 200, 300, [11]⟩).1 = some 1) := by
  refine ⟨overlaps_true_iff, ?_, by decide⟩
  intro a b h
  constructor
  · rw [← Bool.not_eq_true, overlaps_true_iff]
    omega
  · rw [← Bool.not_eq_true, overlaps_true_iff]
    omega

/-- Witness for C4 at a concrete adjacent pair. -/
theorem overlap_halfopen_semantics_witness :
    ((⟨0, 1, 100, 200, [1]⟩ : Meeting.Booking).end_ =
        (⟨1, 1, 200, 300, [2]⟩ : Meeting.Booking).start) ∧
    Meeting.overlaps ⟨0, 1, 100, 200, [1]⟩ ⟨1, 1, 200, 300, [2]⟩ = false :=
  ⟨rfl, (overlap_halfopen_semantics.2.1 ⟨0, 1, 100, 200, [1]⟩
    ⟨1, 1, 200, 300, [2]⟩ rfl).1⟩

/-- C5 counterexample: on the capacity list {2,4,4,8} with the two
capacity-4 rooms listed with ids 5 then 3, the strategy keeps the first
capacity-4 room it meets (id 5); it does not break the tie by ascending id
(which would give id 3).  Selection therefore depends on input order. -/
theorem smallestfit_tiebreak_counterexample :
    Meeting.select tieRooms 3 = some ⟨5, 4⟩ ∧
    Meeting.select tieRooms 3 ≠ some ⟨3, 4⟩ := by decide

/-- C5 (amended): select returns empty exactly when no candidate has the
required capacity; otherwise it returns the qualifying room of minimal
capacity that comes first in the input list — ties are broken by input
position, not by resource id. -/
theorem smallestfit_first_minimal (rooms : List Meeting.Room) (cap : Nat) :
    (Meeting.select rooms cap = none ↔ ∀ r ∈ rooms, r.capacity < cap) ∧
    ∀ r, Meeting.select rooms cap = some r →
      cap ≤ r.capacity ∧
      ∃ l₁ l₂, rooms = l₁ ++ r :: l₂ ∧
        (∀ x ∈ l₁, cap ≤ x.capacity → r.capacity < x.capacity) ∧
        (∀ x ∈ l₂, cap ≤ x.capacity → r.capacity ≤ x.capacity) := by
  constructor
  · constructor
    · intro hnone r hr
      by_contra hc
      push_neg at hc
      rcases selectGo_isSome cap rooms none r hr hc with ⟨q, hq⟩
      rw [Meeting.select] at hnone
      rw [hnone] at hq
      simp at hq
    · intro hall
      exact selectGo_none_of_all cap rooms hall
  · intro r h
    rw [Meeting.select] at h
    rcases selectGo_some_char cap rooms none r h with
      ⟨hbad, _⟩ | ⟨h1, _, l₁, l₂, heq, hl₁, hl₂⟩
    · cases hbad
    · exact ⟨h1, l₁, l₂, heq, hl₁, hl₂⟩

/-- Witness for C5 (amended) on the spec's {2,4,4,8} example, ids ascending
among the tie: the first minimal qualifying room, id 3, is selected. -/
theorem smallestfit_first_minimal_witness :
    Meeting.select tieRoomsSorted 3 = some ⟨3, 4⟩ ∧
    (3 ≤ (⟨3, 4⟩ : Meeting.Room).capacity ∧
      ∃ l₁ l₂, tieRoomsSorted = l₁ ++ (⟨3, 4⟩ : Meeting.Room) :: l₂ ∧
        (∀ x ∈ l₁, 3 ≤ x.capacity →
          (⟨3, 4⟩ : Meeting.Room).capacity < x.capacity) ∧
        (∀ x ∈ l₂, 3 ≤ x.capacity →
          (⟨3, 4⟩ : Meeting.Room).capacity ≤ x.capacity)) :=
  ⟨by decide, (smallestfit_first_minimal tieRoomsSorted 3).2 ⟨3, 4⟩ (by decide)⟩

/-- C8 counterexample: releasing vehicle 7's active booking returns true but
deletes the record wholesale — the store is empty afterwards, no end-stamped
booking is retained. -/
theorem release_retains_record_counterexample :
    (Parking.leaveVehicle oneCarParked 7).1 = true ∧
    (Parking.leaveVehicle oneCarParked 7).2.bookingRepo.bookings_ = [] ∧
    (Parking.leaveVehicle oneCarParked 7).2.bookingRepo.vehicleIndex_ = [] := by
  decide

/-- C9: code bug.  A request with end (50) before start (100) is not
rejected: bookMeeting books it and persists a reservation whose end precedes
its start.  No input validation exists on the allocation path. -/
theorem malformed_window_booked :
    (Meeting.bookMeeting (Meeting.initMeeting [⟨1, 5⟩]) malformedReq).1 =
      some 0 ∧
    ∃ b ∈ (Meeting.bookMeeting (Meeting.initMeeting [⟨1, 5⟩])
        malformedReq).2.br, b.end_ < b.start := by decide

/-- C1 counterexample: book a meeting inside day 1, then book a meeting that
starts on day 0 and runs into day 1.  The conflict check only consults day 0
(the day of the candidate's start), misses the day-1 booking, and persists
two overlapping bookings for the same room. -/
theorem meeting_overlap_counterexample :
    ∃ a ∈ crossDayState.br, ∃ b ∈ crossDayState.br,
      a ≠ b ∧ a.roomId = b.roomId ∧ Meeting.overlaps a b = true := by decide

/-- C6: the fit table matches the claim exactly (motorcycle anywhere, car in
compact or large, truck in large only), and `parkVehicle` returns empty when
no spot type matches (a truck in an all-compact lot); but the "first free"
part is broken: with the only compatible spot occupied by vehicle 7, parking
vehicle 8 does not return empty — it books the already occupied spot 2,
because the occupancy check always reports free. -/
theorem firstfit_table_and_occupancy_bug :
    (∀ v s, Parking.fits v s = true ↔
      (v = Parking.VehicleType.Motorcycle ∨
        (v = Parking.VehicleType.Car ∧
          (s = Parking.SpotType.Compact ∨ s = Parking.SpotType.Large)) ∨
        (v = Parking.VehicleType.Truck ∧ s = Parking.SpotType.Large))) ∧
    (Parking.parkVehicle oneCompactLot 9 Parking.VehicleType.Truck).1 = none ∧
    (∃ e ∈ oneCarParked.bookingRepo.bookings_,
        e.2.spotId = 2 ∧ e.2.end_ = none) ∧
    ((mapFind (Parking.parkVehicle oneCarParked 8
        Parking.VehicleType.Car).2.bookingRepo.bookings_ 4).map
      (fun b => b.spotId) = some 2) := by decide

/-- The parking scan mutates nothing until it allocates: a fully failed scan
returns the incoming state. -/
theorem parkScan_none_state (v : Nat) (vt : Parking.VehicleType)
    (s : Parking.ParkingState) :
    ∀ l, (Parking.parkScan v vt s l).1 = none →
      (Parking.parkScan v vt s l).2 = s := by
  intro l
  induction l with
  | nil => intro _; rfl
  | cons spotId rest ih =>
    intro h
    rw [Parking.parkScan] at h ⊢
    by_cases hocc : Parking.isOccupied s.bookingRepo spotId = true
    · rw [if_pos hocc] at h ⊢
      exact ih h
    · rw [if_neg hocc] at h ⊢
      cases hmf : mapFind s.spots spotId with
      | none =>
        simp only [hmf] at h ⊢
        exact ih h
      | some sp =>
        simp only [hmf] at h ⊢
        split
        next hfit =>
          rw [if_pos hfit] at h
          simp at h
        next hfit =>
          rw [if_neg hfit] at h
          exact ih h

/-- A failed bookMeeting returns the incoming state. -/
theorem bookMeeting_none_state (s : Meeting.MeetingState)
    (req : Meeting.Booking) (h : (Meeting.bookMeeting s req).1 = none) :
    (Meeting.bookMeeting s req).2 = s := by
  rw [Meeting.bookMeeting] at h ⊢
  cases hsel : Meeting.select (Meeting.findByCapacity s.rooms
      req.attendees.length) req.attendees.length with
  | none => simp only [hsel]
  | some room =>
    simp only [hsel] at h ⊢
    split
    next hfree =>
      rw [if_pos hfree] at h
      simp at h
    next hfree =>
      rfl

/-- C10: failed allocation leaves state unchanged — whenever bookMeeting or
parkVehicle returns none, the whole service state (booking stores and all
indexes included) is exactly the incoming one. -/
theorem failed_allocation_state_unchanged :
    (∀ (s : Meeting.MeetingState) (req : Meeting.Booking),
        (Meeting.bookMeeting s req).1 = none →
        (Meeting.bookMeeting s req).2 = s) ∧
    (∀ (s : Parking.ParkingState) (v : Nat) (vt : Parking.VehicleType),
        (Parking.parkVehicle s v vt).1 = none →
        (Parking.parkVehicle s v vt).2 = s) :=
  ⟨bookMeeting_none_state,
   fun s v vt h => parkScan_none_state v vt s s.mutexes h⟩

/-- Witness for C10: a booking request with no qualifying room and a park
request on an empty lot both fail and leave the state untouched. -/
theorem failed_allocation_state_unchanged_witness :
    (Meeting.bookMeeting (Meeting.initMeeting []) ⟨0, 0, 1, 2, [1]⟩).1 =
      none ∧
    (Meeting.bookMeeting (Meeting.initMeeting []) ⟨0, 0, 1, 2, [1]⟩).2 =
      Meeting.initMeeting [] ∧
    (Parking.parkVehicle Parking.emptyParking 1 Parking.VehicleType.Car).1 =
      none ∧
    (Parking.parkVehicle Parking.emptyParking 1 Parking.VehicleType.Car).2 =
      Parking.emptyParking :=
  ⟨by decide,
   failed_allocation_state_unchanged.1 (Meeting.initMeeting [])
     ⟨0, 0, 1, 2, [1]⟩ (by decide),
   by decide,
   failed_allocation_state_unchanged.2 Parking.emptyParking 1
     Parking.VehicleType.Car (by decide)⟩

/-- Cancelling an absent booking id is a false no-op. -/
theorem cancel_absent (s : Meeting.MeetingState) (id : Nat)
    (h : Meeting.findById s.br id = none) :
    Meeting.cancelMeeting s id = (false, s) := by
  rw [Meeting.cancelMeeting, h]

/-- Cancelling a present booking succeeds, removes it, and a second cancel
of the same id fails. -/
theorem cancel_present (s : Meeting.MeetingState) (id : Nat)
    (b : Meeting.Booking) (h : Meeting.findById s.br id = some b) :
    (Meeting.cancelMeeting s id).1 = true ∧
    Meeting.findById (Meeting.cancelMeeting s id).2.br id = none ∧
    (Meeting.cancelMeeting (Meeting.cancelMeeting s id).2 id).1 = false := by
  refine ⟨?_, ?_, ?_⟩
  · rw [Meeting.cancelMeeting, h]
  · simp only [Meeting.cancelMeeting, h]
    exact findById_remove _ _
  · simp only [Meeting.cancelMeeting, h, findById_remove]

/-- Leaving with an unknown vehicle id is a false no-op. -/
theorem leave_absent (s : Parking.ParkingState) (v : Nat)
    (h : Parking.findByVehicle s.bookingRepo v = none) :
    Parking.leaveVehicle s v = (false, s) := by
  rw [Parking.leaveVehicle, h]

/-- Once the vehicle-index entry is gone, leaving again fails. -/
theorem leave_second_false (s : Parking.ParkingState) (v : Nat)
    (h : mapFind s.bookingRepo.vehicleIndex_ v = none) :
    (Parking.leaveVehicle s v).1 = false := by
  rw [Parking.leaveVehicle, Parking.findByVehicle, h]

/-- Core release lemma on a consistent repository: a successful vehicle
lookup names the stored booking keyed by its own id, and leaving erases both
the booking entry and the vehicle-index entry. -/
theorem leave_erases (s : Parking.ParkingState) (v : Nat) (b : Parking.Booking)
    (hc : Parking.consistentB s.bookingRepo = true)
    (hf : Parking.findByVehicle s.bookingRepo v = some b) :
    (Parking.leaveVehicle s v).1 = true ∧
    mapFind (Parking.leaveVehicle s v).2.bookingRepo.bookings_ b.id = none ∧
    mapFind (Parking.leaveVehicle s v).2.bookingRepo.vehicleIndex_ v =
      none := by
  rw [Parking.consistentB, Bool.and_eq_true, List.all_eq_true,
    List.all_eq_true] at hc
  obtain ⟨hc1, hc2⟩ := hc
  have hf' := hf
  rw [Parking.findByVehicle] at hf'
  cases hbid : mapFind s.bookingRepo.vehicleIndex_ v with
  | none =>
    rw [hbid] at hf'
    cases hf'
  | some bid =>
    simp only [hbid] at hf'
    have hmem := mapFind_mem _ _ _ hbid
    have hcv := hc1 (v, bid) hmem
    cases hbk : mapFind s.bookingRepo.bookings_ bid with
    | none =>
      rw [hbk] at hcv
      cases hcv
    | some bk =>
      rw [hbk] at hcv
      have hveh : bk.vehicleId = v := by simpa using hcv
      have hb : bk = b := by
        rw [hbk] at hf'
        simpa using hf'
      subst hb
      have hmem2 := mapFind_mem _ _ _ hbk
      have hid : bk.id = bid := by simpa using hc2 (bid, bk) hmem2
      refine ⟨?_, ?_, ?_⟩
      · simp only [Parking.leaveVehicle, hf]
      · simp only [Parking.leaveVehicle, hf, Parking.remove, hid, hbk]
        exact mapFind_erase_self _ _
      · simp only [Parking.leaveVehicle, hf, Parking.remove, hid, hbk, hveh]
        exact mapFind_erase_self _ _

/-- C7: release is total and idempotent in both services.  Cancelling or
leaving with an unknown id returns false and changes nothing; releasing an
existing reservation returns true and removes it, so a second release of the
same id returns false.  The parking case assumes the repository consistency
that `save`/`remove` maintain from the empty store. -/
theorem release_total_and_idempotent :
    (∀ (s : Meeting.MeetingState) (id : Nat),
        Meeting.findById s.br id = none →
        Meeting.cancelMeeting s id = (false, s)) ∧
    (∀ (s : Meeting.MeetingState) (id : Nat) (b : Meeting.Booking),
        Meeting.findById s.br id = some b →
        (Meeting.cancelMeeting s id).1 = true ∧
        Meeting.findById (Meeting.cancelMeeting s id).2.br id = none ∧
        (Meeting.cancelMeeting (Meeting.cancelMeeting s id).2 id).1 = false) ∧
    (∀ (s : Parking.ParkingState) (v : Nat),
        Parking.findByVehicle s.bookingRepo v = none →
        Parking.leaveVehicle s v = (false, s)) ∧
    (∀ (s : Parking.ParkingState) (v : Nat) (b : Parking.Booking),
        Parking.consistentB s.bookingRepo = true →
        Parking.findByVehicle s.bookingRepo v = some b →
        (Parking.leaveVehicle s v).1 = true ∧
        (Parking.leaveVehicle (Parking.leaveVehicle s v).2 v).1 = false) :=
  ⟨cancel_absent, cancel_present, leave_absent,
   fun s v b hc hf =>
     ⟨(leave_erases s v b hc hf).1,
      leave_second_false _ v (leave_erases s v b hc hf).2.2⟩⟩

/-- Witness for C7: concrete double releases in both services, plus false
no-ops on empty stores. -/
theorem release_total_and_idempotent_witness :
    Meeting.findById (Meeting.initMeeting []).br 9 = none ∧
    Meeting.cancelMeeting (Meeting.initMeeting []) 9 =
      (false, Meeting.initMeeting []) ∧
    Meeting.findById oneMeetingBooked.br 0 = some ⟨0, 1, 10, 20, [3]⟩ ∧
    (Meeting.cancelMeeting oneMeetingBooked 0).1 = true ∧
    (Meeting.cancelMeeting (Meeting.cancelMeeting oneMeetingBooked 0).2 0).1 =
      false ∧
    Parking.consistentB oneCarParked.bookingRepo = true ∧
    Parking.findByVehicle oneCarParked.bookingRepo 7 =
      some ⟨3, 2, 7, Parking.VehicleType.Car, 0, none⟩ ∧
    (Parking.leaveVehicle oneCarParked 7).1 = true ∧
    (Parking.leaveVehicle (Parking.leaveVehicle oneCarParked 7).2 7).1 =
      false :=
  ⟨by decide,
   release_total_and_idempotent.1 (Meeting.initMeeting []) 9 (by decide),
   by decide,
   (release_total_and_idempotent.2.1 oneMeetingBooked 0 ⟨0, 1, 10, 20, [3]⟩
     (by decide)).1,
   (release_total_and_idempotent.2.1 oneMeetingBooked 0 ⟨0, 1, 10, 20, [3]⟩
     (by decide)).2.2,
   by decide,
   by decide,
   (release_total_and_idempotent.2.2.2 oneCarParked 7
     ⟨3, 2, 7, Parking.VehicleType.Car, 0, none⟩ (by decide) (by decide)).1,
   (release_total_and_idempotent.2.2.2 oneCarParked 7
     ⟨3, 2, 7, Parking.VehicleType.Car, 0, none⟩ (by decide) (by decide)).2⟩

/-- C8 (amended): on a consistent repository, a successful leaveVehicle
deletes the reservation record outright — the bookings map no longer holds
the booking id and the vehicle index no longer holds the vehicle — instead
of retaining an end-stamped record. -/
theorem parking_release_deletes_record (s : Parking.ParkingState) (v : Nat)
    (b : Parking.Booking) (hc : Parking.consistentB s.bookingRepo = true)
    (hf : Parking.findByVehicle s.bookingRepo v = some b) :
    (Parking.leaveVehicle s v).1 = true ∧
    mapFind (Parking.leaveVehicle s v).2.bookingRepo.bookings_ b.id = none ∧
    mapFind (Parking.leaveVehicle s v).2.bookingRepo.vehicleIndex_ v =
      none :=
  leave_erases s v b hc hf

/-- Witness for C8 (amended) on the one-car lot. -/
theorem parking_release_deletes_record_witness :
    Parking.consistentB oneCarParked.bookingRepo = true ∧
    Parking.findByVehicle oneCarParked.bookingRepo 7 =
      some ⟨3, 2, 7, Parking.VehicleType.Car, 0, none⟩ ∧
    ((Parking.leaveVehicle oneCarParked 7).1 = true ∧
      mapFind (Parking.leaveVehicle oneCarParked 7).2.bookingRepo.bookings_
        (⟨3, 2, 7, Parking.VehicleType.Car, 0, none⟩ :
          Parking.Booking).id = none ∧
      mapFind
        (Parking.leaveVehicle oneCarParked 7).2.bookingRepo.vehicleIndex_ 7 =
        none) :=
  ⟨by decide, by decide,
   parking_release_deletes_record oneCarParked 7
     ⟨3, 2, 7, Parking.VehicleType.Car, 0, none⟩ (by decide) (by decide)⟩

/-- Saving a booking with a fresh id prepends it to the store. -/
theorem save_fresh (l : List Meeting.Booking) (b : Meeting.Booking)
    (h : ∀ x ∈ l, x.id ≠ b.id) : Meeting.save l b = b :: l := by
  rw [Meeting.save]
  congr 1
  apply List.filter_eq_self.mpr
  intro x hx
  simpa using h x hx

/-- A passed isFree check rules out overlap with every stored same-room
booking, provided the candidate's window lies within the day of its
start. -/
theorem isFree_no_overlap (cal : List Meeting.Booking) (b : Meeting.Booking)
    (hday : b.end_ ≤ (Meeting.toDate b.start + 1) * Meeting.dayLen)
    (hfree : Meeting.isFree cal b.roomId b = true) :
    ∀ ex ∈ cal, b.roomId = ex.roomId → Meeting.overlaps b ex = false := by
  intro ex hex hroom
  rw [← Bool.not_eq_true, overlaps_true_iff]
  intro hov
  have hmem : ex ∈ Meeting.findByRoomAndDay cal b.roomId
      (Meeting.toDate b.start) := by
    rw [Meeting.findByRoomAndDay, List.mem_filter]
    refine ⟨hex, ?_⟩
    have h1 : ex.start < (Meeting.toDate b.start + 1) * Meeting.dayLen :=
      lt_of_lt_of_le hov.1 hday
    have h2 : Meeting.toDate b.start * Meeting.dayLen < ex.end_ :=
      lt_of_le_of_lt (Nat.div_mul_le_self b.start Meeting.dayLen) hov.2
    simp [hroom, h1, h2]
  rw [Meeting.isFree, List.all_eq_true] at hfree
  have h3 := hfree ex hmem
  rw [Bool.not_eq_true'] at h3
  rw [← Bool.not_eq_true, overlaps_true_iff] at h3
  exact h3 ⟨hov.2, hov.1⟩

/-- One service call preserves the run invariant, provided a booked window
stays inside the day of its start. -/
theorem MInv_step (s : Meeting.MeetingState) (op : Meeting.MOp)
    (hinv : MInv s) (hday : Meeting.singleDayOp op = true) :
    MInv (Meeting.runMOp s op) := by
  obtain ⟨hno, hsync, hids⟩ := hinv
  cases op with
  | cancel i =>
    cases hfind : Meeting.findById s.br i with
    | none =>
      simp only [Meeting.runMOp, Meeting.cancelMeeting, hfind]
      exact ⟨hno, hsync, hids⟩
    | some b =>
      simp only [Meeting.runMOp, Meeting.cancelMeeting, hfind]
      refine ⟨?_, ?_, ?_⟩
      · exact List.Pairwise.sublist (List.filter_sublist _) hno
      · rw [Meeting.remove, Meeting.remove, hsync]
      · intro x hx
        rw [Meeting.remove, List.mem_filter] at hx
        exact hids x hx.1
  | book req =>
    rw [Meeting.singleDayOp] at hday
    have hd : req.end_ ≤ (Meeting.toDate req.start + 1) * Meeting.dayLen := by
      simpa using hday
    cases hsel : Meeting.select
        (Meeting.findByCapacity s.rooms req.attendees.length)
        req.attendees.length with
    | none =>
      simp only [Meeting.runMOp, Meeting.bookMeeting, hsel]
      exact ⟨hno, hsync, hids⟩
    | some room =>
      simp only [Meeting.runMOp, Meeting.bookMeeting, hsel]
      split
      next hfree =>
        have hfresh : ∀ x ∈ s.br, x.id ≠
            (⟨s.nextId, room.id, req.start, req.end_, req.attendees⟩ :
              Meeting.Booking).id :=
          fun x hx => Nat.ne_of_lt (hids x hx)
        have hfresh2 : ∀ x ∈ s.calRepo, x.id ≠
            (⟨s.nextId, room.id, req.start, req.end_, req.attendees⟩ :
              Meeting.Booking).id := by
          rw [hsync]
          exact hfresh
        refine ⟨?_, ?_, ?_⟩
        · rw [save_fresh s.br _ hfresh]
          refine List.Pairwise.cons ?_ hno
          intro ex hex hroom
          exact isFree_no_overlap s.calRepo
            ⟨s.nextId, room.id, req.start, req.end_, req.attendees⟩ hd hfree
            ex (by rw [hsync]; exact hex) hroom
        · rw [save_fresh s.br _ hfresh, save_fresh s.calRepo _ hfresh2, hsync]
        · intro x hx
          rw [save_fresh s.br _ hfresh, List.mem_cons] at hx
          rcases hx with hx | hx
          · rw [hx]
            exact Nat.lt_succ_self _
          · exact Nat.lt_succ_of_lt (hids x hx)
      next hfree =>
        exact ⟨hno, hsync, hids⟩

/-- The run invariant holds along any single-day call sequence. -/
theorem MInv_runMOps (ops : List Meeting.MOp) :
    ∀ s : Meeting.MeetingState, MInv s →
      (∀ op ∈ ops, Meeting.singleDayOp op = true) →
      MInv (Meeting.runMOps s ops) := by
  induction ops with
  | nil =>
    intro s h _
    exact h
  | cons op rest ih =>
    intro s h hall
    rw [Meeting.runMOps, List.foldl_cons]
    exact ih (Meeting.runMOp s op) (MInv_step s op h (hall op (by simp)))
      (fun o ho => hall o (List.mem_cons_of_mem _ ho))

/-- C1 (amended): starting from empty stores, along any sequence of
bookMeeting and cancelMeeting calls whose booked windows each lie within the
calendar day of their start, no two simultaneously persisted bookings on the
same room overlap.  (The day restriction is forced: the conflict check only
consults the day of the candidate's start, see the counterexample.) -/
theorem booking_no_overlap_single_day (rooms : List Meeting.Room)
    (ops : List Meeting.MOp)
    (h : ∀ op ∈ ops, Meeting.singleDayOp op = true) :
    Meeting.noRoomOverlap (Meeting.runMOps (Meeting.initMeeting rooms) ops).br :=
  (MInv_runMOps ops (Meeting.initMeeting rooms)
    ⟨List.Pairwise.nil, rfl, by intro b hb; cases hb⟩ h).1

/-- Witness for C1 (amended): two same-day bookings and a cancel. -/
theorem booking_no_overlap_single_day_witness :
    (∀ op ∈ ([Meeting.MOp.book ⟨0, 0, 100, 200, [1]⟩,
        Meeting.MOp.book ⟨0, 0, 200, 300, [2]⟩, Meeting.MOp.cancel 0] :
        List Meeting.MOp), Meeting.singleDayOp op = true) ∧
    Meeting.noRoomOverlap (Meeting.runMOps (Meeting.initMeeting [⟨1, 5⟩])
      [Meeting.MOp.book ⟨0, 0, 100, 200, [1]⟩,
       Meeting.MOp.book ⟨0, 0, 200, 300, [2]⟩,
       Meeting.MOp.cancel 0]).br :=
  ⟨by decide,
   booking_no_overlap_single_day [⟨1, 5⟩]
     [Meeting.MOp.book ⟨0, 0, 100, 200, [1]⟩,
      Meeting.MOp.book ⟨0, 0, 200, 300, [2]⟩,
      Meeting.MOp.cancel 0] (by decide)⟩
